import Mathlib

/-!
Verification of the AppConfig `Environment` module
(`packages/@aws-cdk/aws-appconfig-alpha/lib/environment.ts`).

Strings are modelled as lists of characters (`Str`); the JavaScript
`String.prototype.split` with a single-character separator is `splitAux`.
Collaborators from `aws-cdk-lib` (`Stack.splitArn`, `Stack.formatArn`,
`Names.uniqueResourceName`, the IAM `Role` construct and the
`ExtensibleBase` collaborator) are not part of this module; each is
modelled from the specification and its doc comment starts with
`Modelled from the spec:`.
-/

/-- Strings are modelled as lists of characters. -/
abbrev Str := List Char

/-- JavaScript single-character split: `splitAux c s` models `s.split(c)`.
It never returns the empty list, and `splitAux c [] = [[]]`. -/
def splitAux (c : Char) : Str → List Str
  | [] => [[]]
  | x :: xs =>
    if x = c then [] :: splitAux c xs
    else
      match splitAux c xs with
      | [] => [[x]]
      | g :: gs => (x :: g) :: gs

/-- Joins a list of segments with a single-character separator. -/
def joinSep (c : Char) : List Str → Str
  | [] => []
  | [x] => x
  | x :: xs => x ++ c :: joinSep c xs

theorem splitAux_ne_nil (c : Char) (s : Str) : splitAux c s ≠ [] := by
  induction s with
  | nil => simp [splitAux]
  | cons x xs ih =>
    unfold splitAux
    by_cases h : x = c
    · simp [h]
    · rw [if_neg h]
      cases hs : splitAux c xs with
      | nil => simp
      | cons g gs => simp

theorem splitAux_of_not_mem (c : Char) (s : Str) (h : c ∉ s) : splitAux c s = [s] := by
  induction s with
  | nil => rfl
  | cons x xs ih =>
    have hx : x ≠ c := fun e => h (by simp [e])
    have hxs : c ∉ xs := fun m => h (List.mem_cons_of_mem _ m)
    unfold splitAux
    rw [if_neg hx, ih hxs]

theorem splitAux_cons_self (c : Char) (xs : Str) :
    splitAux c (c :: xs) = [] :: splitAux c xs := by
  rw [splitAux, if_pos rfl]

theorem splitAux_cons_of_ne (c x : Char) (xs : Str) (g : Str) (gs : List Str)
    (h : x ≠ c) (hs : splitAux c xs = g :: gs) :
    splitAux c (x :: xs) = (x :: g) :: gs := by
  rw [splitAux, if_neg h, hs]

theorem splitAux_append_sep (c : Char) (s t : Str) (h : c ∉ s) :
    splitAux c (s ++ c :: t) = s :: splitAux c t := by
  induction s with
  | nil => simp [splitAux_cons_self]
  | cons x xs ih =>
    have hx : x ≠ c := fun e => h (by simp [e])
    have hxs : c ∉ xs := fun m => h (List.mem_cons_of_mem _ m)
    have hrec := ih hxs
    exact splitAux_cons_of_ne c x (xs ++ c :: t) xs (splitAux c t) hx hrec

theorem joinSep_splitAux (c : Char) (s : Str) : joinSep c (splitAux c s) = s := by
  induction s with
  | nil => rfl
  | cons x xs ih =>
    by_cases h : x = c
    · subst h
      rw [splitAux_cons_self]
      cases hs : splitAux x xs with
      | nil => exact absurd hs (splitAux_ne_nil x xs)
      | cons g gs =>
        rw [hs] at ih
        have h1 : joinSep x ([] :: g :: gs) = x :: joinSep x (g :: gs) := rfl
        rw [h1, ih]
    · cases hs : splitAux c xs with
      | nil => exact absurd hs (splitAux_ne_nil c xs)
      | cons g gs =>
        rw [hs] at ih
        rw [splitAux_cons_of_ne c x xs g gs h hs]
        cases gs with
        | nil =>
          have h1 : joinSep c [x :: g] = x :: g := rfl
          have h2 : joinSep c [g] = g := rfl
          rw [h2] at ih
          rw [h1, ih]
        | cons g2 gs2 =>
          have h1 : joinSep c ((x :: g) :: g2 :: gs2) = x :: joinSep c (g :: g2 :: gs2) := rfl
          rw [h1, ih]

theorem joinSep_append_single (c : Char) (p : List Str) (x : Str) (hp : p ≠ []) :
    joinSep c (p ++ [x]) = joinSep c p ++ c :: x := by
  induction p with
  | nil => exact absurd rfl hp
  | cons a as ih =>
    cases as with
    | nil => simp [joinSep]
    | cons b bs =>
      have hstep := ih (by simp)
      calc joinSep c ((a :: b :: bs) ++ [x])
          = a ++ c :: joinSep c ((b :: bs) ++ [x]) := rfl
        _ = a ++ c :: (joinSep c (b :: bs) ++ c :: x) := by rw [hstep]
        _ = joinSep c (a :: b :: bs) ++ c :: x := by
              have h1 : joinSep c (a :: b :: bs) = a ++ c :: joinSep c (b :: bs) := rfl
              rw [h1, List.append_assoc]
              rfl

/-- Scope context for ARN formatting: the deployment partition, region and
account of the enclosing stack. -/
structure ArnContext where
  partition : Str
  region : Str
  account : Str
deriving DecidableEq

/-- Modelled from the spec: `Stack.formatArn` (from `aws-cdk-lib`, not part
of this module). Produces the bit-exact ARN grammar of the spec:
`<partition>:<service>:<region>:<account>:<resource>/<resourceName>`. -/
def formatArn (ctx : ArnContext) (service resource resourceName : Str) : Str :=
  ctx.partition ++ ':' :: (service ++ ':' :: (ctx.region ++ ':' ::
    (ctx.account ++ ':' :: (resource ++ '/' :: resourceName))))

/-- Modelled from the spec: the resource-name extraction of
`Stack.splitArn` with `ArnFormat.SLASH_RESOURCE_NAME` (from `aws-cdk-lib`,
not part of this module). The ARN is split on colons; everything from the
fifth component on is the resource portion, and the text after the first
slash of that portion is the resource name (absent when there is no slash
or the ARN has too few components). -/
def splitArnResourceName (arn : Str) : Option Str :=
  let parts := splitAux ':' arn
  if parts.length < 5 then none
  else
    match splitAux '/' (joinSep ':' (parts.drop 4)) with
    | [] => none
    | [_] => none
    | _ :: rest => some (joinSep '/' rest)

/-- The error taxonomy of the module: both throw sites of
`Environment.fromEnvironmentArn` (environment.ts lines 129 and 134) raise
a malformed-identifier error. -/
inductive MalformedIdentifierError where
  | missingResourceName
  | malformedResourceName
deriving DecidableEq

/-- The identity triple exposed by the `Import` class built in
`Environment.fromEnvironmentArn` (environment.ts lines 140-148). -/
structure ImportedEnv where
  applicationId : Str
  environmentId : Str
  environmentArn : Str
deriving DecidableEq

/-- `Environment.fromEnvironmentArn` (environment.ts lines 126-149): split
the ARN, require a resource name of exactly 3 slash-separated segments
with non-empty first and third segment, and return the identity triple
with the input ARN passed through verbatim. The emptiness test on the
resource name mirrors the JavaScript falsiness test
`!parsedArn.resourceName` on line 128. -/
def fromEnvironmentArn (arn : Str) : Except MalformedIdentifierError ImportedEnv :=
  match splitArnResourceName arn with
  | none => .error .missingResourceName
  | some r =>
    if r = [] then .error .missingResourceName
    else
      let segs := splitAux '/' r
      if segs.length ≠ 3 ∨ segs.headD [] = [] ∨ segs.getD 2 [] = [] then
        .error .malformedResourceName
      else
        .ok { applicationId := segs.headD []
              environmentId := segs.getD 2 []
              environmentArn := arn }

/-- The resource name `<applicationId>/environment/<environmentId>` used by
`fromEnvironmentAttributes` (line 166) and the constructor (line 252). -/
def envResourceName (applicationId environmentId : Str) : Str :=
  applicationId ++ '/' :: ("environment".toList ++ '/' :: environmentId)

/-- A monitor specification (environment.ts lines 282-294): the alarm is
modelled by its `alarmArn`, the optional supplied role by its `roleArn`. -/
structure Monitor where
  alarmArn : Str
  alarmRole : Option Str
deriving DecidableEq

/-- IAM policy statement effect. -/
inductive Effect where
  | allow
  | deny
deriving DecidableEq

/-- An IAM policy statement, modelled by the three fields
`createAlarmRole` sets (environment.ts lines 260-264). -/
structure PolicyStatement where
  effect : Effect
  actions : List Str
  resources : List Str
deriving DecidableEq

/-- A role synthesized by `createAlarmRole` (environment.ts lines
259-276): child construct id, trust-policy service principal, and the
single named inline policy with its statements. `roleName` is requested as
`PhysicalName.GENERATE_IF_NEEDED` (line 269), recorded by
`roleNameGenerated`. -/
structure SynthesizedRole where
  constructId : Str
  assumedByService : Str
  inlinePolicyName : Str
  policyStatements : List PolicyStatement
  roleNameGenerated : Bool
deriving DecidableEq

/-- Modelled from the spec: the IAM role collaborator returns a role
reference exposing an ARN; modelled as a deterministic, non-empty ARN
derived from the role construct id. -/
def SynthesizedRole.roleArn (r : SynthesizedRole) : Str :=
  "arn:iam-role/".toList ++ r.constructId

/-- `Environment.createAlarmRole` (environment.ts lines 259-276). -/
def createAlarmRole (alarmArn : Str) (index : Nat) : SynthesizedRole :=
  { constructId := "Role".toList ++ (Nat.repr index).toList
    assumedByService := "appconfig.amazonaws.com".toList
    inlinePolicyName := "AllowAppConfigMonitorAlarmPolicy".toList
    policyStatements :=
      [{ effect := .allow
         actions := ["cloudwatch:DescribeAlarms".toList]
         resources := [alarmArn] }]
    roleNameGenerated := true }

/-- One entry of the `monitors` property handed to `CfnEnvironment`
(environment.ts lines 239-244). -/
structure CfnMonitorProperty where
  alarmArn : Str
  alarmRoleArn : Str
deriving DecidableEq

/-- The monitor mapping of the constructor (environment.ts lines 239-244):
`alarmRoleArn: monitor.alarmRole?.roleArn || this.createAlarmRole(...)`.
The JavaScript `||` falls through to role synthesis both when `alarmRole`
is absent and when the supplied role ARN is the empty string. Returns the
descriptor entry together with the role synthesized for it, if any. -/
def mapMonitorEntry (m : Monitor) (index : Nat) :
    CfnMonitorProperty × Option SynthesizedRole :=
  match m.alarmRole with
  | some suppliedArn =>
    if suppliedArn = [] then
      let role := createAlarmRole m.alarmArn index
      ({ alarmArn := m.alarmArn, alarmRoleArn := role.roleArn }, some role)
    else
      ({ alarmArn := m.alarmArn, alarmRoleArn := suppliedArn }, none)
  | none =>
    let role := createAlarmRole m.alarmArn index
    ({ alarmArn := m.alarmArn, alarmRoleArn := role.roleArn }, some role)

/-- Maps a function with a running index over a list, as the `map` with
index callback on environment.ts line 239. -/
def mapWithIndex (f : Nat → Monitor → CfnMonitorProperty × Option SynthesizedRole) :
    Nat → List Monitor → List (CfnMonitorProperty × Option SynthesizedRole)
  | _, [] => []
  | i, m :: ms => f i m :: mapWithIndex f (i + 1) ms

/-- The roles synthesized while mapping the monitor list, in monitor
order, starting from index `k`. -/
def rolesOf : Nat → List Monitor → List SynthesizedRole
  | _, [] => []
  | k, m :: ms =>
    match (mapMonitorEntry m k).2 with
    | some r => r :: rolesOf (k + 1) ms
    | none => rolesOf (k + 1) ms

/-- Modelled from the spec: `Names.uniqueResourceName` (from
`aws-cdk-lib`, not part of this module) with `maxLength: 64` and
`separator: '-'`: joins the construct scope path with `-` and truncates
the result to 64 characters; deterministic in the scope path. -/
def uniqueResourceName (path : List Str) : Str :=
  (joinSep '-' path).take 64

/-- Construction-time scope context: ARN context of the enclosing stack,
the construct scope path, and the reference the resource-emission sink
assigns to the emitted `CfnEnvironment` (its `ref`, used as the
environment id on environment.ts line 248). -/
structure ScopeContext where
  arnCtx : ArnContext
  scopePath : List Str
  assignedEnvironmentId : Str
deriving DecidableEq

/-- `EnvironmentProps` (environment.ts lines 82-110); the `application`
collaborator is modelled by its resolved `applicationId`. -/
structure EnvironmentProps where
  applicationId : Str
  name : Option Str
  description : Option Str
  monitors : Option (List Monitor)
deriving DecidableEq

/-- Name resolution of the constructor (environment.ts lines 226-229):
`props.name || Names.uniqueResourceName(this, ...)`. The JavaScript `||`
falls through to generation both when `name` is absent and when it is the
empty string. The construct path of `this` is the scope path extended by
the environment construct id. -/
def resolveName (scopePath : List Str) (id : Str) (name : Option Str) : Str :=
  match name with
  | some n => if n = [] then uniqueResourceName (scopePath ++ [id]) else n
  | none => uniqueResourceName (scopePath ++ [id])

/-- The property bag handed to `CfnEnvironment` (environment.ts lines
235-245). -/
structure CfnEnvironmentProps where
  applicationId : Str
  name : Str
  description : Option Str
  monitors : Option (List CfnMonitorProperty)
deriving DecidableEq

/-- The readable fields the constructed `Environment` exposes
(environment.ts lines 184-217). -/
structure Environment where
  applicationId : Str
  name : Str
  description : Option Str
  environmentId : Str
  environmentArn : Str
deriving DecidableEq

/-- The observable side effects of the construction paths, in order:
child-role synthesis, emission of the `CfnEnvironment` resource, creation
of the `ExtensibleBase` collaborator, creation of an `Import` construct,
and the `application.addExistingEnvironment(this)` registration call. -/
inductive Event where
  | createRole (role : SynthesizedRole)
  | createCfnEnvironment (props : CfnEnvironmentProps)
  | createExtensibleBase (resourceArn : Str) (resourceName : Str)
  | createImportConstruct (environmentArn : Str)
  | registerWithApplication (environment : Environment)
deriving DecidableEq

/-- Whether an event is the `application.addExistingEnvironment` call. -/
def isRegisterEvent : Event → Bool
  | .registerWithApplication _ => true
  | _ => false

/-- Counts `addExistingEnvironment` calls in an event trace. -/
def countRegister : List Event → Nat
  | [] => 0
  | e :: es => (if isRegisterEvent e then 1 else 0) + countRegister es

/-- Everything the constructor produces: the environment, the descriptor
handed to the sink, the synthesized roles, and the ordered event trace. -/
structure ConstructionResult where
  environment : Environment
  cfnProps : CfnEnvironmentProps
  createdRoles : List SynthesizedRole
  events : List Event
deriving DecidableEq

/-- The `Environment` constructor (environment.ts lines 221-257): resolve
the name, map the monitor list (synthesizing a role per monitor without a
usable supplied role), emit the `CfnEnvironment`, read back the assigned
id, format the environment ARN, attach the `ExtensibleBase`, and finally
register with the owning application. -/
def constructEnvironment (ctx : ScopeContext) (id : Str) (props : EnvironmentProps) :
    ConstructionResult :=
  let name := resolveName ctx.scopePath id props.name
  let entries := props.monitors.map (fun ms =>
    (mapWithIndex (fun i m => mapMonitorEntry m i) 0 ms).map Prod.fst)
  let roles := match props.monitors with
    | some ms => rolesOf 0 ms
    | none => []
  let cfnProps : CfnEnvironmentProps :=
    { applicationId := props.applicationId
      name := name
      description := props.description
      monitors := entries }
  let environmentId := ctx.assignedEnvironmentId
  let environmentArn := formatArn ctx.arnCtx "appconfig".toList "application".toList
    (envResourceName props.applicationId environmentId)
  let env : Environment :=
    { applicationId := props.applicationId
      name := name
      description := props.description
      environmentId := environmentId
      environmentArn := environmentArn }
  { environment := env
    cfnProps := cfnProps
    createdRoles := roles
    events := (roles.map Event.createRole) ++
      [Event.createCfnEnvironment cfnProps,
       Event.createExtensibleBase environmentArn name,
       Event.registerWithApplication env] }

/-- `EnvironmentAttributes` (environment.ts lines 12-37); the
`application` collaborator is modelled by its resolved `applicationId`. -/
structure EnvironmentAttributes where
  applicationId : Str
  environmentId : Str
  name : Option Str
  description : Option Str
  monitors : Option (List Monitor)
deriving DecidableEq

/-- The fields the `Import` class of `fromEnvironmentAttributes` exposes
(environment.ts lines 169-177). -/
structure AttributeImportedEnv where
  applicationId : Str
  environmentId : Str
  environmentArn : Str
  name : Option Str
  description : Option Str
  monitors : Option (List Monitor)
deriving DecidableEq

/-- `Environment.fromEnvironmentAttributes` (environment.ts lines
158-182): format the ARN from the parent application id and the given
environment id, and expose the attributes unchanged. -/
def fromEnvironmentAttributes (ctx : ArnContext) (attr : EnvironmentAttributes) :
    AttributeImportedEnv :=
  { applicationId := attr.applicationId
    environmentId := attr.environmentId
    environmentArn := formatArn ctx "appconfig".toList "application".toList
      (envResourceName attr.applicationId attr.environmentId)
    name := attr.name
    description := attr.description
    monitors := attr.monitors }

/-- `fromEnvironmentArn` with its event trace: on failure the throw
happens before any construct is created (empty trace); on success the
`Import` construct is created and nothing else. -/
def fromEnvironmentArnEv (arn : Str) :
    List Event × Except MalformedIdentifierError ImportedEnv :=
  match fromEnvironmentArn arn with
  | .error e => ([], .error e)
  | .ok env => ([.createImportConstruct env.environmentArn], .ok env)

/-- `fromEnvironmentAttributes` with its event trace: the `Import`
construct is created and nothing else. -/
def fromEnvironmentAttributesEv (ctx : ArnContext) (attr : EnvironmentAttributes) :
    List Event × AttributeImportedEnv :=
  let env := fromEnvironmentAttributes ctx attr
  ([.createImportConstruct env.environmentArn], env)

/-- The seven fixed action points of the deployment lifecycle. -/
inductive ActionPoint where
  | preCreateHostedConfigurationVersion
  | preStartDeployment
  | onDeploymentStart
  | onDeploymentStep
  | onDeploymentBaking
  | onDeploymentComplete
  | onDeploymentRolledBack
deriving DecidableEq

/-- An event destination collaborator, modelled by an opaque token. -/
structure EventDestination where
  token : Str
deriving DecidableEq

/-- Extension options, modelled by an opaque token. -/
structure ExtensionOptions where
  token : Str
deriving DecidableEq

/-- Modelled from the spec: the `ExtensibleBase` collaborator (from
extension.ts, not part of this module). It is constructed from the
resource ARN and name and keeps the hook registrations made through it. -/
structure ExtensibleBase where
  resourceArn : Str
  resourceName : Str
  hooks : List (ActionPoint × EventDestination × Option ExtensionOptions)
deriving DecidableEq

/-- Modelled from the spec: the generic `on` operation of
`ExtensibleBase` registers one hook at the given action point. -/
def ExtensibleBase.on (x : ExtensibleBase) (ap : ActionPoint)
    (d : EventDestination) (o : Option ExtensionOptions) : ExtensibleBase :=
  { x with hooks := x.hooks ++ [(ap, d, o)] }

/-- Modelled from the spec: each convenience wrapper of `ExtensibleBase`
calls the generic operation with its action point held constant. -/
def ExtensibleBase.preCreateHostedConfigurationVersion (x : ExtensibleBase)
    (d : EventDestination) (o : Option ExtensionOptions) : ExtensibleBase :=
  x.on .preCreateHostedConfigurationVersion d o

/-- Modelled from the spec: wrapper for `PRE_START_DEPLOYMENT`. -/
def ExtensibleBase.preStartDeployment (x : ExtensibleBase)
    (d : EventDestination) (o : Option ExtensionOptions) : ExtensibleBase :=
  x.on .preStartDeployment d o

/-- Modelled from the spec: wrapper for `ON_DEPLOYMENT_START`. -/
def ExtensibleBase.onDeploymentStart (x : ExtensibleBase)
    (d : EventDestination) (o : Option ExtensionOptions) : ExtensibleBase :=
  x.on .onDeploymentStart d o

/-- Modelled from the spec: wrapper for `ON_DEPLOYMENT_STEP`. -/
def ExtensibleBase.onDeploymentStep (x : ExtensibleBase)
    (d : EventDestination) (o : Option ExtensionOptions) : ExtensibleBase :=
  x.on .onDeploymentStep d o

/-- Modelled from the spec: wrapper for `ON_DEPLOYMENT_BAKING`. -/
def ExtensibleBase.onDeploymentBaking (x : ExtensibleBase)
    (d : EventDestination) (o : Option ExtensionOptions) : ExtensibleBase :=
  x.on .onDeploymentBaking d o

/-- Modelled from the spec: wrapper for `ON_DEPLOYMENT_COMPLETE`. -/
def ExtensibleBase.onDeploymentComplete (x : ExtensibleBase)
    (d : EventDestination) (o : Option ExtensionOptions) : ExtensibleBase :=
  x.on .onDeploymentComplete d o

/-- Modelled from the spec: wrapper for `ON_DEPLOYMENT_ROLLED_BACK`. -/
def ExtensibleBase.onDeploymentRolledBack (x : ExtensibleBase)
    (d : EventDestination) (o : Option ExtensionOptions) : ExtensibleBase :=
  x.on .onDeploymentRolledBack d o

/-- `EnvironmentBase` (environment.ts lines 39-80), modelled by the
`extensible` collaborator it forwards to. -/
structure EnvironmentBase where
  extensible : ExtensibleBase
deriving DecidableEq

/-- `EnvironmentBase.on` (environment.ts lines 45-47): forwards to the
generic operation of the collaborator. -/
def EnvironmentBase.on (env : EnvironmentBase) (ap : ActionPoint)
    (d : EventDestination) (o : Option ExtensionOptions) : EnvironmentBase :=
  { env with extensible := env.extensible.on ap d o }

/-- `EnvironmentBase.preCreateHostedConfigurationVersion` (environment.ts
lines 49-51): forwards to the same-named wrapper of the collaborator. -/
def EnvironmentBase.preCreateHostedConfigurationVersion (env : EnvironmentBase)
    (d : EventDestination) (o : Option ExtensionOptions) : EnvironmentBase :=
  { env with extensible := env.extensible.preCreateHostedConfigurationVersion d o }

/-- `EnvironmentBase.preStartDeployment` (environment.ts lines 53-55). -/
def EnvironmentBase.preStartDeployment (env : EnvironmentBase)
    (d : EventDestination) (o : Option ExtensionOptions) : EnvironmentBase :=
  { env with extensible := env.extensible.preStartDeployment d o }

/-- `EnvironmentBase.onDeploymentStart` (environment.ts lines 57-59). -/
def EnvironmentBase.onDeploymentStart (env : EnvironmentBase)
    (d : EventDestination) (o : Option ExtensionOptions) : EnvironmentBase :=
  { env with extensible := env.extensible.onDeploymentStart d o }

/-- `EnvironmentBase.onDeploymentStep` (environment.ts lines 61-63). -/
def EnvironmentBase.onDeploymentStep (env : EnvironmentBase)
    (d : EventDestination) (o : Option ExtensionOptions) : EnvironmentBase :=
  { env with extensible := env.extensible.onDeploymentStep d o }

/-- `EnvironmentBase.onDeploymentBaking` (environment.ts lines 65-67). -/
def EnvironmentBase.onDeploymentBaking (env : EnvironmentBase)
    (d : EventDestination) (o : Option ExtensionOptions) : EnvironmentBase :=
  { env with extensible := env.extensible.onDeploymentBaking d o }

/-- `EnvironmentBase.onDeploymentComplete` (environment.ts lines 69-71). -/
def EnvironmentBase.onDeploymentComplete (env : EnvironmentBase)
    (d : EventDestination) (o : Option ExtensionOptions) : EnvironmentBase :=
  { env with extensible := env.extensible.onDeploymentComplete d o }

/-- `EnvironmentBase.onDeploymentRolledBack` (environment.ts lines 73-75). -/
def EnvironmentBase.onDeploymentRolledBack (env : EnvironmentBase)
    (d : EventDestination) (o : Option ExtensionOptions) : EnvironmentBase :=
  { env with extensible := env.extensible.onDeploymentRolledBack d o }

/-- Default monitor used with `List.getD`. -/
def defaultMonitor : Monitor := { alarmArn := [], alarmRole := none }

/-- Default descriptor monitor entry used with `List.getD`. -/
def defaultEntry : CfnMonitorProperty := { alarmArn := [], alarmRoleArn := [] }

/-- Default entry-role pair used with `List.getD`. -/
def defaultPair : CfnMonitorProperty × Option SynthesizedRole := (defaultEntry, none)

theorem roleArn_ne_nil (r : SynthesizedRole) : r.roleArn ≠ [] := by
  unfold SynthesizedRole.roleArn
  intro h
  have hlen : ("arn:iam-role/".toList ++ r.constructId).length = 0 := by rw [h]; rfl
  rw [List.length_append] at hlen
  have h13 : ("arn:iam-role/".toList : Str).length = 13 := by decide
  omega

theorem mapWithIndex_length (f : Nat → Monitor → CfnMonitorProperty × Option SynthesizedRole)
    (k : Nat) (l : List Monitor) : (mapWithIndex f k l).length = l.length := by
  induction l generalizing k with
  | nil => rfl
  | cons m ms ih => simp [mapWithIndex, ih]

theorem mapWithIndex_getD (f : Nat → Monitor → CfnMonitorProperty × Option SynthesizedRole)
    (l : List Monitor) (k i : Nat) (h : i < l.length) :
    (mapWithIndex f k l).getD i defaultPair = f (k + i) (l.getD i defaultMonitor) := by
  induction l generalizing k i with
  | nil => simp at h
  | cons m ms ih =>
    cases i with
    | zero => simp [mapWithIndex]
    | succ j =>
      have hj : j < ms.length := by simpa using h
      have hrec := ih (k + 1) j hj
      have harith : k + 1 + j = k + (j + 1) := by omega
      rw [harith] at hrec
      simpa [mapWithIndex] using hrec

theorem getD_map_fst (l : List (CfnMonitorProperty × Option SynthesizedRole)) (i : Nat)
    (h : i < l.length) :
    (l.map Prod.fst).getD i defaultEntry = (l.getD i defaultPair).1 := by
  induction l generalizing i with
  | nil => simp at h
  | cons p ps ih =>
    cases i with
    | zero => simp
    | succ j =>
      have hj : j < ps.length := by simpa using h
      simpa using ih j hj

theorem mem_rolesOf (ms : List Monitor) (k i : Nat) (h : i < ms.length)
    (hnone : (ms.getD i defaultMonitor).alarmRole = none) :
    createAlarmRole (ms.getD i defaultMonitor).alarmArn (k + i) ∈ rolesOf k ms := by
  induction ms generalizing k i with
  | nil => simp at h
  | cons m rest ih =>
    cases i with
    | zero =>
      rw [List.getD_cons_zero] at hnone ⊢
      have hsnd : (mapMonitorEntry m k).2 = some (createAlarmRole m.alarmArn k) := by
        simp [mapMonitorEntry, hnone]
      simp only [rolesOf, hsnd, Nat.add_zero]
      exact List.mem_cons_self _ _
    | succ j =>
      have hj : j < rest.length := by simpa using h
      rw [List.getD_cons_succ] at hnone ⊢
      have hrec := ih (k + 1) j hj hnone
      have harith : k + 1 + j = k + (j + 1) := by omega
      rw [harith] at hrec
      simp only [rolesOf]
      cases hm : (mapMonitorEntry m k).2 with
      | some r => exact List.mem_cons_of_mem _ hrec
      | none => exact hrec

theorem countRegister_append (a b : List Event) :
    countRegister (a ++ b) = countRegister a + countRegister b := by
  induction a with
  | nil => simp [countRegister]
  | cons e es ih => simp [countRegister, ih]; omega

theorem countRegister_map_createRole (roles : List SynthesizedRole) :
    countRegister (roles.map Event.createRole) = 0 := by
  induction roles with
  | nil => rfl
  | cons r rs ih => simpa [countRegister, isRegisterEvent] using ih

theorem countRegister_construct (ctx : ScopeContext) (id : Str) (props : EnvironmentProps) :
    countRegister (constructEnvironment ctx id props).events = 1 := by
  unfold constructEnvironment
  simp only []
  rw [countRegister_append, countRegister_map_createRole]
  rfl

theorem splitArnResourceName_formatArn (ctx : ArnContext) (service resource rn : Str)
    (hp : ':' ∉ ctx.partition) (hs : ':' ∉ service) (hr : ':' ∉ ctx.region)
    (ha : ':' ∉ ctx.account) (hres : '/' ∉ resource) :
    splitArnResourceName (formatArn ctx service resource rn) = some rn := by
  unfold splitArnResourceName formatArn
  rw [splitAux_append_sep ':' ctx.partition _ hp,
      splitAux_append_sep ':' service _ hs,
      splitAux_append_sep ':' ctx.region _ hr,
      splitAux_append_sep ':' ctx.account _ ha]
  have hT : 1 ≤ (splitAux ':' (resource ++ '/' :: rn)).length :=
    List.length_pos.mpr (splitAux_ne_nil _ _)
  rw [if_neg (by simp only [List.length_cons]; omega)]
  simp only [List.drop_succ_cons, List.drop_zero]
  rw [joinSep_splitAux, splitAux_append_sep '/' resource rn hres]
  cases hrn : splitAux '/' rn with
  | nil => exact absurd hrn (splitAux_ne_nil _ _)
  | cons g gs =>
    show some (joinSep '/' (g :: gs)) = some rn
    rw [← hrn, joinSep_splitAux]

theorem fromEnvironmentArn_ok_of_split (arn r a m e : Str)
    (h1 : splitArnResourceName arn = some r)
    (h2 : splitAux '/' r = [a, m, e])
    (ha : a ≠ []) (he : e ≠ []) :
    fromEnvironmentArn arn = .ok { applicationId := a, environmentId := e, environmentArn := arn } := by
  have hr : r ≠ [] := by
    intro hnil
    rw [hnil] at h2
    simp [splitAux] at h2
  unfold fromEnvironmentArn
  rw [h1]
  simp only [if_neg hr, h2]
  rw [if_neg (by simp [ha, he])]
  rfl

/-- The well-formedness condition of the claim list: the ARN carries a
resource name that splits on `/` into exactly three segments with
non-empty first and third segment. -/
def goodResourceShape (arn : Str) : Prop :=
  ∃ r a m e, splitArnResourceName arn = some r ∧ splitAux '/' r = [a, m, e] ∧ a ≠ [] ∧ e ≠ []

theorem fromEnvironmentArn_error_iff (arn : Str) :
    (∃ err, fromEnvironmentArn arn = .error err) ↔ ¬ goodResourceShape arn := by
  constructor
  · rintro ⟨err, herr⟩ ⟨r, a, m, e, h1, h2, ha, he⟩
    rw [fromEnvironmentArn_ok_of_split arn r a m e h1 h2 ha he] at herr
    exact Except.noConfusion herr
  · intro hng
    cases hsplit : splitArnResourceName arn with
    | none =>
      refine ⟨.missingResourceName, ?_⟩
      unfold fromEnvironmentArn
      rw [hsplit]
    | some r =>
      by_cases hr : r = []
      · refine ⟨.missingResourceName, ?_⟩
        unfold fromEnvironmentArn
        rw [hsplit]
        simp only [if_pos hr]
      · by_cases hcond : (splitAux '/' r).length ≠ 3 ∨ (splitAux '/' r).headD [] = []
            ∨ (splitAux '/' r).getD 2 [] = []
        · refine ⟨.malformedResourceName, ?_⟩
          unfold fromEnvironmentArn
          rw [hsplit]
          simp only [if_neg hr, if_pos hcond]
        · exfalso
          apply hng
          push_neg at hcond
          obtain ⟨hlen, hhead, hget⟩ := hcond
          obtain ⟨a, b, c, habc⟩ := List.length_eq_three.mp hlen
          refine ⟨r, a, b, c, hsplit, habc, ?_, ?_⟩
          · rw [habc] at hhead
            simpa using hhead
          · rw [habc] at hget
            simpa using hget

theorem uniqueResourceName_length_le (p : List Str) : (uniqueResourceName p).length ≤ 64 := by
  unfold uniqueResourceName
  rw [List.length_take]
  exact Nat.min_le_left _ _

theorem getLast?_append_three (l : List Event) (a b c : Event) :
    (l ++ [a, b, c]).getLast? = some c := by
  have h : l ++ [a, b, c] = (l ++ [a, b]) ++ [c] := by
    rw [List.append_assoc]
    rfl
  rw [h, List.getLast?_concat]

theorem construct_events_getLast (ctx : ScopeContext) (id : Str) (props : EnvironmentProps) :
    (constructEnvironment ctx id props).events.getLast? =
      some (.registerWithApplication (constructEnvironment ctx id props).environment) := by
  unfold constructEnvironment
  simp only []
  rw [getLast?_append_three]

deriving instance DecidableEq for Except

/-- A concrete ARN context used by the witnesses. -/
def sampleCtx : ArnContext :=
  { partition := "aws".toList, region := "us-east-1".toList, account := "111122223333".toList }

/-- A concrete well-formed environment ARN. -/
def sampleArn : Str :=
  "aws:appconfig:us-east-1:111122223333:application/app1/environment/env1".toList

/-- A concrete ARN whose middle resource-name segment is empty. -/
def sampleArnEmptyMiddle : Str :=
  "aws:appconfig:us-east-1:111122223333:application/app1//env1".toList

/-- A concrete string that is not an ARN at all. -/
def missingArn : Str := "garbage".toList

/-- Claim C1: for every ARN whose resource-name portion splits on `/` into
exactly the three segments `[A, "environment", E]` with `A` and `E`
non-empty, `fromEnvironmentArn` succeeds and returns an environment with
`applicationId = A`, `environmentId = E` and `environmentArn` equal to the
input ARN verbatim. -/
theorem c1_import_by_arn_identity (arn r a e : Str)
    (h1 : splitArnResourceName arn = some r)
    (h2 : splitAux '/' r = [a, "environment".toList, e])
    (ha : a ≠ []) (he : e ≠ []) :
    fromEnvironmentArn arn =
      .ok { applicationId := a, environmentId := e, environmentArn := arn } :=
  fromEnvironmentArn_ok_of_split arn r a "environment".toList e h1 h2 ha he

/-- Witness for C1 at a concrete well-formed ARN. -/
theorem c1_import_by_arn_identity_witness :
    splitArnResourceName sampleArn = some "app1/environment/env1".toList
    ∧ splitAux '/' "app1/environment/env1".toList =
        ["app1".toList, "environment".toList, "env1".toList]
    ∧ ("app1".toList : Str) ≠ []
    ∧ ("env1".toList : Str) ≠ []
    ∧ fromEnvironmentArn sampleArn =
        .ok { applicationId := "app1".toList, environmentId := "env1".toList,
              environmentArn := sampleArn } :=
  ⟨by decide, by decide, by decide, by decide,
   c1_import_by_arn_identity sampleArn "app1/environment/env1".toList
     "app1".toList "env1".toList (by decide) (by decide) (by decide) (by decide)⟩

/-- Claim C2: `fromEnvironmentArn` fails with a malformed-identifier error
exactly on the ARNs whose resource name is absent or does not split into
three segments with non-empty first and third segment; on failure the
throw happens before any construct is registered (empty event trace). -/
theorem c2_import_error_characterization (arn : Str) :
    ((∃ err, fromEnvironmentArn arn = .error err) ↔ ¬ goodResourceShape arn)
    ∧ ((∃ err, fromEnvironmentArn arn = .error err) → (fromEnvironmentArnEv arn).1 = []) := by
  refine ⟨fromEnvironmentArn_error_iff arn, ?_⟩
  rintro ⟨err, herr⟩
  unfold fromEnvironmentArnEv
  rw [herr]

/-- Witness for C2 at a concrete malformed ARN. -/
theorem c2_import_error_characterization_witness :
    ¬ goodResourceShape missingArn ∧ (fromEnvironmentArnEv missingArn).1 = [] :=
  ⟨(c2_import_error_characterization missingArn).1.mp ⟨.missingResourceName, by decide⟩,
   (c2_import_error_characterization missingArn).2 ⟨.missingResourceName, by decide⟩⟩

/-- Claim C9: `fromEnvironmentArn` never validates the middle resource-name
segment: any three-segment resource name with non-empty first and third
segment is accepted, whatever the middle segment is, and the identifiers
are taken from segments 0 and 2. -/
theorem c9_middle_segment_unvalidated (arn r a m e : Str)
    (h1 : splitArnResourceName arn = some r)
    (h2 : splitAux '/' r = [a, m, e])
    (ha : a ≠ []) (he : e ≠ []) :
    fromEnvironmentArn arn =
      .ok { applicationId := a, environmentId := e, environmentArn := arn } :=
  fromEnvironmentArn_ok_of_split arn r a m e h1 h2 ha he

/-- Witness for C9 at a concrete ARN whose middle segment is empty. -/
theorem c9_middle_segment_unvalidated_witness :
    splitArnResourceName sampleArnEmptyMiddle = some "app1//env1".toList
    ∧ splitAux '/' "app1//env1".toList = ["app1".toList, [], "env1".toList]
    ∧ ("app1".toList : Str) ≠ []
    ∧ ("env1".toList : Str) ≠ []
    ∧ fromEnvironmentArn sampleArnEmptyMiddle =
        .ok { applicationId := "app1".toList, environmentId := "env1".toList,
              environmentArn := sampleArnEmptyMiddle } :=
  ⟨by decide, by decide, by decide, by decide,
   c9_middle_segment_unvalidated sampleArnEmptyMiddle "app1//env1".toList
     "app1".toList [] "env1".toList (by decide) (by decide) (by decide) (by decide)⟩

/-- Counterexample to C4 as stated: for the pair `("a/b", "e")` the ARN
formatted by `fromEnvironmentAttributes` does not re-import to the same
pair; the slash inside the application id makes the resource name split
into four segments, so `fromEnvironmentArn` throws instead. -/
theorem c4_roundtrip_counterexample :
    fromEnvironmentArn
        (fromEnvironmentAttributes sampleCtx
          { applicationId := "a/b".toList, environmentId := "e".toList,
            name := none, description := none, monitors := none }).environmentArn
      = .error .malformedResourceName := by decide

/-- Claim C4 as amended: for every pair of non-empty strings that contain
no `/`, in a scope whose partition, region and account contain no `:`,
resolving identity from attributes, formatting the ARN and re-importing it
yields the same pair. -/
theorem c4_roundtrip_amended (ctx : ArnContext) (appId envId : Str)
    (hp : ':' ∉ ctx.partition) (hr : ':' ∉ ctx.region) (hacct : ':' ∉ ctx.account)
    (ha : appId ≠ []) (he : envId ≠ []) (hsa : '/' ∉ appId) (hse : '/' ∉ envId) :
    fromEnvironmentArn
        (fromEnvironmentAttributes ctx
          { applicationId := appId, environmentId := envId,
            name := none, description := none, monitors := none }).environmentArn =
      .ok { applicationId := appId, environmentId := envId,
            environmentArn := (fromEnvironmentAttributes ctx
              { applicationId := appId, environmentId := envId,
                name := none, description := none, monitors := none }).environmentArn } := by
  have hservice : ':' ∉ ("appconfig".toList : Str) := by decide
  have hresource : '/' ∉ ("application".toList : Str) := by decide
  have henv : '/' ∉ ("environment".toList : Str) := by decide
  have hsplit := splitArnResourceName_formatArn ctx "appconfig".toList "application".toList
    (envResourceName appId envId) hp hservice hr hacct hresource
  have hsegs : splitAux '/' (envResourceName appId envId)
      = [appId, "environment".toList, envId] := by
    unfold envResourceName
    rw [splitAux_append_sep '/' appId _ hsa,
        splitAux_append_sep '/' "environment".toList envId henv,
        splitAux_of_not_mem '/' envId hse]
  exact fromEnvironmentArn_ok_of_split _ _ _ _ _ hsplit hsegs ha he

/-- Witness for the amended C4 at the concrete pair `("app1", "env1")`. -/
theorem c4_roundtrip_amended_witness :
    (':' ∉ sampleCtx.partition) ∧ (':' ∉ sampleCtx.region) ∧ (':' ∉ sampleCtx.account)
    ∧ ("app1".toList : Str) ≠ [] ∧ ("env1".toList : Str) ≠ []
    ∧ ('/' ∉ ("app1".toList : Str)) ∧ ('/' ∉ ("env1".toList : Str))
    ∧ fromEnvironmentArn
        (fromEnvironmentAttributes sampleCtx
          { applicationId := "app1".toList, environmentId := "env1".toList,
            name := none, description := none, monitors := none }).environmentArn =
      .ok { applicationId := "app1".toList, environmentId := "env1".toList,
            environmentArn := (fromEnvironmentAttributes sampleCtx
              { applicationId := "app1".toList, environmentId := "env1".toList,
                name := none, description := none, monitors := none }).environmentArn } :=
  ⟨by decide, by decide, by decide, by decide, by decide, by decide, by decide,
   c4_roundtrip_amended sampleCtx "app1".toList "env1".toList
     (by decide) (by decide) (by decide) (by decide) (by decide) (by decide) (by decide)⟩

theorem mapMonitorEntry_none (m : Monitor) (i : Nat) (h : m.alarmRole = none) :
    mapMonitorEntry m i =
      ({ alarmArn := m.alarmArn, alarmRoleArn := (createAlarmRole m.alarmArn i).roleArn },
       some (createAlarmRole m.alarmArn i)) := by
  unfold mapMonitorEntry
  rw [h]

theorem mapMonitorEntry_some (m : Monitor) (i : Nat) (arn : Str)
    (h : m.alarmRole = some arn) (hne : arn ≠ []) :
    mapMonitorEntry m i = ({ alarmArn := m.alarmArn, alarmRoleArn := arn }, none) := by
  unfold mapMonitorEntry
  rw [h]
  simp [hne]

/-- A concrete construction scope used by the witnesses. -/
def sampleScope : ScopeContext :=
  { arnCtx := sampleCtx, scopePath := ["MyStack".toList],
    assignedEnvironmentId := "EnvRef".toList }

/-- Concrete props with one monitor that has no supplied role. -/
def w3props : EnvironmentProps :=
  { applicationId := "app1".toList, name := some "prod".toList, description := none,
    monitors := some [{ alarmArn := "alarmX".toList, alarmRole := none }] }

/-- Concrete props with one monitor whose supplied role has an empty ARN. -/
def w5props : EnvironmentProps :=
  { applicationId := "app1".toList, name := some "prod".toList, description := none,
    monitors := some [{ alarmArn := "alarmX".toList, alarmRole := some [] }] }

/-- Concrete props with one monitor whose supplied role has a real ARN. -/
def w5props2 : EnvironmentProps :=
  { applicationId := "app1".toList, name := some "prod".toList, description := none,
    monitors := some [{ alarmArn := "alarmX".toList, alarmRole := some "arn:supplied".toList }] }

/-- Claim C3: for every monitor without a supplied role, the built
descriptor entry carries the non-empty ARN of a freshly synthesized role,
the role is a child construct named `Role<index>`, its trust policy is
assumable only by the AppConfig service principal, and its permission
policy is the single ALLOW statement for `cloudwatch:DescribeAlarms` on
exactly that monitor's alarm ARN. -/
theorem c3_monitor_without_role_synthesizes
    (ctx : ScopeContext) (id : Str) (props : EnvironmentProps)
    (ms : List Monitor) (i : Nat)
    (hms : props.monitors = some ms) (hi : i < ms.length)
    (hnone : (ms.getD i defaultMonitor).alarmRole = none) :
    ∃ entries,
      (constructEnvironment ctx id props).cfnProps.monitors = some entries
      ∧ entries.length = ms.length
      ∧ entries.getD i defaultEntry =
          { alarmArn := (ms.getD i defaultMonitor).alarmArn
            alarmRoleArn := (createAlarmRole (ms.getD i defaultMonitor).alarmArn i).roleArn }
      ∧ (createAlarmRole (ms.getD i defaultMonitor).alarmArn i).roleArn ≠ []
      ∧ createAlarmRole (ms.getD i defaultMonitor).alarmArn i
          ∈ (constructEnvironment ctx id props).createdRoles
      ∧ (createAlarmRole (ms.getD i defaultMonitor).alarmArn i).constructId
          = "Role".toList ++ (Nat.repr i).toList
      ∧ (createAlarmRole (ms.getD i defaultMonitor).alarmArn i).assumedByService
          = "appconfig.amazonaws.com".toList
      ∧ (createAlarmRole (ms.getD i defaultMonitor).alarmArn i).policyStatements
          = [{ effect := .allow
               actions := ["cloudwatch:DescribeAlarms".toList]
               resources := [(ms.getD i defaultMonitor).alarmArn] }] := by
  have hmon : (constructEnvironment ctx id props).cfnProps.monitors
      = some ((mapWithIndex (fun j m => mapMonitorEntry m j) 0 ms).map Prod.fst) := by
    unfold constructEnvironment
    simp only [hms, Option.map_some']
  refine ⟨_, hmon, ?_, ?_, roleArn_ne_nil _, ?_, rfl, rfl, rfl⟩
  · rw [List.length_map, mapWithIndex_length]
  · have hlt : i < (mapWithIndex (fun j m => mapMonitorEntry m j) 0 ms).length := by
      rw [mapWithIndex_length]
      exact hi
    rw [getD_map_fst _ i hlt, mapWithIndex_getD _ ms 0 i hi, Nat.zero_add,
        mapMonitorEntry_none _ i hnone]
  · have hroles : (constructEnvironment ctx id props).createdRoles = rolesOf 0 ms := by
      unfold constructEnvironment
      simp only [hms]
    rw [hroles]
    simpa using mem_rolesOf ms 0 i hi hnone

/-- Witness for C3: one monitor without a role at index 0. -/
theorem c3_monitor_without_role_synthesizes_witness :
    w3props.monitors = some [{ alarmArn := "alarmX".toList, alarmRole := none }]
    ∧ 0 < ([{ alarmArn := "alarmX".toList, alarmRole := none }] : List Monitor).length
    ∧ (([{ alarmArn := "alarmX".toList, alarmRole := none }] : List Monitor).getD 0
        defaultMonitor).alarmRole = none
    ∧ ∃ entries,
        (constructEnvironment sampleScope "MyEnv".toList w3props).cfnProps.monitors = some entries
        ∧ entries.length = ([{ alarmArn := "alarmX".toList, alarmRole := none }] : List Monitor).length
        ∧ entries.getD 0 defaultEntry =
            { alarmArn := (([{ alarmArn := "alarmX".toList, alarmRole := none }] : List Monitor).getD 0 defaultMonitor).alarmArn
              alarmRoleArn := (createAlarmRole (([{ alarmArn := "alarmX".toList, alarmRole := none }] : List Monitor).getD 0 defaultMonitor).alarmArn 0).roleArn }
        ∧ (createAlarmRole (([{ alarmArn := "alarmX".toList, alarmRole := none }] : List Monitor).getD 0 defaultMonitor).alarmArn 0).roleArn ≠ []
        ∧ createAlarmRole (([{ alarmArn := "alarmX".toList, alarmRole := none }] : List Monitor).getD 0 defaultMonitor).alarmArn 0
            ∈ (constructEnvironment sampleScope "MyEnv".toList w3props).createdRoles
        ∧ (createAlarmRole (([{ alarmArn := "alarmX".toList, alarmRole := none }] : List Monitor).getD 0 defaultMonitor).alarmArn 0).constructId
            = "Role".toList ++ (Nat.repr 0).toList
        ∧ (createAlarmRole (([{ alarmArn := "alarmX".toList, alarmRole := none }] : List Monitor).getD 0 defaultMonitor).alarmArn 0).assumedByService
            = "appconfig.amazonaws.com".toList
        ∧ (createAlarmRole (([{ alarmArn := "alarmX".toList, alarmRole := none }] : List Monitor).getD 0 defaultMonitor).alarmArn 0).policyStatements
            = [{ effect := .allow
                 actions := ["cloudwatch:DescribeAlarms".toList]
                 resources := [(([{ alarmArn := "alarmX".toList, alarmRole := none }] : List Monitor).getD 0 defaultMonitor).alarmArn] }] :=
  ⟨rfl, by decide, rfl,
   c3_monitor_without_role_synthesizes sampleScope "MyEnv".toList w3props
     [{ alarmArn := "alarmX".toList, alarmRole := none }] 0 rfl (by decide) rfl⟩

/-- Counterexample to C5 as stated: a monitor whose supplied role has the
empty ARN. The JavaScript `||` on environment.ts line 242 treats the empty
string as falsy, so a role IS synthesized and the built entry does not
carry the supplied ARN. -/
theorem c5_supplied_role_counterexample :
    (constructEnvironment sampleScope "MyEnv".toList w5props).cfnProps.monitors
      = some [{ alarmArn := "alarmX".toList, alarmRoleArn := "arn:iam-role/Role0".toList }]
    ∧ (constructEnvironment sampleScope "MyEnv".toList w5props).cfnProps.monitors
      ≠ some [{ alarmArn := "alarmX".toList, alarmRoleArn := [] }]
    ∧ (constructEnvironment sampleScope "MyEnv".toList w5props).createdRoles
      = [createAlarmRole "alarmX".toList 0] :=
  ⟨by decide, by decide, by decide⟩

/-- Claim C5 as amended: for every monitor whose supplied role has a
non-empty ARN, no role is synthesized for that monitor and the built
descriptor entry carries the supplied role's ARN. -/
theorem c5_supplied_role_amended
    (ctx : ScopeContext) (id : Str) (props : EnvironmentProps)
    (ms : List Monitor) (i : Nat) (suppliedArn : Str)
    (hms : props.monitors = some ms) (hi : i < ms.length)
    (hsome : (ms.getD i defaultMonitor).alarmRole = some suppliedArn)
    (hne : suppliedArn ≠ []) :
    ∃ entries,
      (constructEnvironment ctx id props).cfnProps.monitors = some entries
      ∧ entries.length = ms.length
      ∧ entries.getD i defaultEntry =
          { alarmArn := (ms.getD i defaultMonitor).alarmArn, alarmRoleArn := suppliedArn }
      ∧ (mapMonitorEntry (ms.getD i defaultMonitor) i).2 = none := by
  have hmon : (constructEnvironment ctx id props).cfnProps.monitors
      = some ((mapWithIndex (fun j m => mapMonitorEntry m j) 0 ms).map Prod.fst) := by
    unfold constructEnvironment
    simp only [hms, Option.map_some']
  refine ⟨_, hmon, ?_, ?_, ?_⟩
  · rw [List.length_map, mapWithIndex_length]
  · have hlt : i < (mapWithIndex (fun j m => mapMonitorEntry m j) 0 ms).length := by
      rw [mapWithIndex_length]
      exact hi
    rw [getD_map_fst _ i hlt, mapWithIndex_getD _ ms 0 i hi, Nat.zero_add,
        mapMonitorEntry_some _ i suppliedArn hsome hne]
  · rw [mapMonitorEntry_some _ i suppliedArn hsome hne]

/-- Witness for the amended C5: one monitor with a non-empty supplied role
ARN at index 0. -/
theorem c5_supplied_role_amended_witness :
    w5props2.monitors = some [{ alarmArn := "alarmX".toList, alarmRole := some "arn:supplied".toList }]
    ∧ 0 < ([{ alarmArn := "alarmX".toList, alarmRole := some "arn:supplied".toList }] : List Monitor).length
    ∧ (([{ alarmArn := "alarmX".toList, alarmRole := some "arn:supplied".toList }] : List Monitor).getD 0
        defaultMonitor).alarmRole = some "arn:supplied".toList
    ∧ ("arn:supplied".toList : Str) ≠ []
    ∧ ∃ entries,
        (constructEnvironment sampleScope "MyEnv".toList w5props2).cfnProps.monitors = some entries
        ∧ entries.length = ([{ alarmArn := "alarmX".toList, alarmRole := some "arn:supplied".toList }] : List Monitor).length
        ∧ entries.getD 0 defaultEntry =
            { alarmArn := (([{ alarmArn := "alarmX".toList, alarmRole := some "arn:supplied".toList }] : List Monitor).getD 0 defaultMonitor).alarmArn
              alarmRoleArn := "arn:supplied".toList }
        ∧ (mapMonitorEntry (([{ alarmArn := "alarmX".toList, alarmRole := some "arn:supplied".toList }] : List Monitor).getD 0 defaultMonitor) 0).2 = none :=
  ⟨rfl, by decide, rfl, by decide,
   c5_supplied_role_amended sampleScope "MyEnv".toList w5props2
     [{ alarmArn := "alarmX".toList, alarmRole := some "arn:supplied".toList }] 0
     "arn:supplied".toList rfl (by decide) rfl (by decide)⟩

theorem construct_env_name (ctx : ScopeContext) (id : Str) (props : EnvironmentProps) :
    (constructEnvironment ctx id props).environment.name
      = resolveName ctx.scopePath id props.name := rfl

theorem resolveName_some_ne (p : List Str) (id n : Str) (hne : n ≠ []) :
    resolveName p id (some n) = n := by
  unfold resolveName
  simp [hne]

theorem resolveName_none (p : List Str) (id : Str) :
    resolveName p id none = uniqueResourceName (p ++ [id]) := rfl

/-- Concrete props supplying the empty string as name. -/
def w6props : EnvironmentProps :=
  { applicationId := "app1".toList, name := some [], description := none, monitors := none }

/-- Concrete props supplying no name. -/
def w6propsAnon : EnvironmentProps :=
  { applicationId := "app1".toList, name := none, description := none, monitors := none }

/-- Counterexample to C6 as stated: supplying the empty string as `name`
does not yield the supplied name verbatim; the JavaScript `||` on
environment.ts line 226 treats it as falsy, so a name is generated. -/
theorem c6_name_counterexample :
    (constructEnvironment sampleScope "MyEnv".toList w6props).environment.name
      = "MyStack-MyEnv".toList
    ∧ (constructEnvironment sampleScope "MyEnv".toList w6props).environment.name ≠ [] :=
  ⟨by decide, by decide⟩

/-- Claim C6 as amended: a supplied NON-EMPTY name is used verbatim; with
no name the generated name is the scope path joined with `-` truncated to
64 characters (hence deterministic in the scope path and at most 64
characters long); and two sibling environments without names whose joined
scope paths stay within the 64-character bound receive distinct names. -/
theorem c6_name_resolution_amended (ctx : ScopeContext) (id : Str) (props : EnvironmentProps) :
    (∀ n, props.name = some n → n ≠ [] →
      (constructEnvironment ctx id props).environment.name = n)
    ∧ (props.name = none →
        (constructEnvironment ctx id props).environment.name
          = uniqueResourceName (ctx.scopePath ++ [id]))
    ∧ (uniqueResourceName (ctx.scopePath ++ [id])).length ≤ 64
    ∧ (∀ id2 props2, props.name = none → props2.name = none → id ≠ id2 →
        (joinSep '-' (ctx.scopePath ++ [id])).length ≤ 64 →
        (joinSep '-' (ctx.scopePath ++ [id2])).length ≤ 64 →
        (constructEnvironment ctx id props).environment.name
          ≠ (constructEnvironment ctx id2 props2).environment.name) := by
  refine ⟨?_, ?_, uniqueResourceName_length_le _, ?_⟩
  · intro n hn hne
    rw [construct_env_name, hn, resolveName_some_ne _ _ _ hne]
  · intro hn
    rw [construct_env_name, hn, resolveName_none]
  · intro id2 props2 h1 h2 hid hlen1 hlen2 heq
    rw [construct_env_name, construct_env_name, h1, h2,
        resolveName_none, resolveName_none] at heq
    unfold uniqueResourceName at heq
    rw [List.take_of_length_le hlen1, List.take_of_length_le hlen2] at heq
    cases hsp : ctx.scopePath with
    | nil =>
      rw [hsp] at heq
      simp only [List.nil_append] at heq
      exact hid heq
    | cons q qs =>
      rw [hsp] at heq
      rw [joinSep_append_single '-' (q :: qs) id (by simp),
          joinSep_append_single '-' (q :: qs) id2 (by simp)] at heq
      have htail := List.append_cancel_left heq
      injection htail with _ htl
      exact hid htl

/-- Witness for the amended C6 at concrete sibling environments. -/
theorem c6_name_resolution_amended_witness :
    w3props.name = some "prod".toList
    ∧ ("prod".toList : Str) ≠ []
    ∧ (constructEnvironment sampleScope "MyEnv".toList w3props).environment.name = "prod".toList
    ∧ w6propsAnon.name = none
    ∧ (constructEnvironment sampleScope "EnvA".toList w6propsAnon).environment.name
        = uniqueResourceName (sampleScope.scopePath ++ ["EnvA".toList])
    ∧ (uniqueResourceName (sampleScope.scopePath ++ ["EnvA".toList])).length ≤ 64
    ∧ ("EnvA".toList : Str) ≠ "EnvB".toList
    ∧ (joinSep '-' (sampleScope.scopePath ++ ["EnvA".toList])).length ≤ 64
    ∧ (joinSep '-' (sampleScope.scopePath ++ ["EnvB".toList])).length ≤ 64
    ∧ (constructEnvironment sampleScope "EnvA".toList w6propsAnon).environment.name
        ≠ (constructEnvironment sampleScope "EnvB".toList w6propsAnon).environment.name :=
  ⟨rfl, by decide,
   (c6_name_resolution_amended sampleScope "MyEnv".toList w3props).1 "prod".toList rfl (by decide),
   rfl,
   (c6_name_resolution_amended sampleScope "EnvA".toList w6propsAnon).2.1 rfl,
   (c6_name_resolution_amended sampleScope "EnvA".toList w6propsAnon).2.2.1,
   by decide, by decide, by decide,
   (c6_name_resolution_amended sampleScope "EnvA".toList w6propsAnon).2.2.2 "EnvB".toList
     w6propsAnon rfl rfl (by decide) (by decide) (by decide)⟩

/-- Claim C7: every completed construction registers the environment with
its application exactly once, as the final event, after the descriptor and
ARN are resolved; a throwing construction (the ARN import path, the only
construction that throws in this module) creates and registers nothing. -/
theorem c7_registration_exactly_once (ctx : ScopeContext) (id : Str)
    (props : EnvironmentProps) (arn : Str) :
    countRegister (constructEnvironment ctx id props).events = 1
    ∧ (constructEnvironment ctx id props).events.getLast? =
        some (.registerWithApplication (constructEnvironment ctx id props).environment)
    ∧ ((∃ err, (fromEnvironmentArnEv arn).2 = .error err) → (fromEnvironmentArnEv arn).1 = []) := by
  refine ⟨countRegister_construct ctx id props, construct_events_getLast ctx id props, ?_⟩
  rintro ⟨err, herr⟩
  rcases hfa : fromEnvironmentArn arn with e | env
  · unfold fromEnvironmentArnEv
    rw [hfa]
  · exfalso
    unfold fromEnvironmentArnEv at herr
    rw [hfa] at herr
    simp at herr

/-- Witness for C7 at a concrete construction and a concrete failing import. -/
theorem c7_registration_exactly_once_witness :
    (∃ err, (fromEnvironmentArnEv missingArn).2 = .error err)
    ∧ countRegister (constructEnvironment sampleScope "MyEnv".toList w3props).events = 1
    ∧ (constructEnvironment sampleScope "MyEnv".toList w3props).events.getLast? =
        some (.registerWithApplication
          (constructEnvironment sampleScope "MyEnv".toList w3props).environment)
    ∧ (fromEnvironmentArnEv missingArn).1 = [] :=
  ⟨⟨.missingResourceName, by decide⟩,
   (c7_registration_exactly_once sampleScope "MyEnv".toList w3props missingArn).1,
   (c7_registration_exactly_once sampleScope "MyEnv".toList w3props missingArn).2.1,
   (c7_registration_exactly_once sampleScope "MyEnv".toList w3props missingArn).2.2
     ⟨.missingResourceName, by decide⟩⟩

/-- Claim C8: each of the seven named hook-registration wrappers is
observably equivalent to the generic `on` operation invoked with that
wrapper's fixed action point and the same arguments. -/
theorem c8_wrappers_equal_generic (env : EnvironmentBase) (d : EventDestination)
    (o : Option ExtensionOptions) :
    env.preCreateHostedConfigurationVersion d o = env.on .preCreateHostedConfigurationVersion d o
    ∧ env.preStartDeployment d o = env.on .preStartDeployment d o
    ∧ env.onDeploymentStart d o = env.on .onDeploymentStart d o
    ∧ env.onDeploymentStep d o = env.on .onDeploymentStep d o
    ∧ env.onDeploymentBaking d o = env.on .onDeploymentBaking d o
    ∧ env.onDeploymentComplete d o = env.on .onDeploymentComplete d o
    ∧ env.onDeploymentRolledBack d o = env.on .onDeploymentRolledBack d o :=
  ⟨rfl, rfl, rfl, rfl, rfl, rfl, rfl⟩

/-- Claim C10: neither import path ever emits the
`application.addExistingEnvironment` registration; only the full
constructor registers (exactly once). -/
theorem c10_imports_never_register (arn : Str) (ctx : ArnContext)
    (attr : EnvironmentAttributes) (sctx : ScopeContext) (id : Str)
    (props : EnvironmentProps) :
    countRegister (fromEnvironmentArnEv arn).1 = 0
    ∧ countRegister (fromEnvironmentAttributesEv ctx attr).1 = 0
    ∧ countRegister (constructEnvironment sctx id props).events = 1 := by
  refine ⟨?_, rfl, countRegister_construct sctx id props⟩
  unfold fromEnvironmentArnEv
  rcases hfa : fromEnvironmentArn arn with e | env
  · rfl
  · rfl
